import Mathlib

/-!
Verification development for the retreat accommodation service
(`main.py` + `schemas.py`).

The document store is modelled as association lists keyed by the string
rendering of the Mongo `_id` (Mongo renders ObjectIds as 24 lowercase hex
characters).  Each request handler becomes a pure function from a `Store`
to `Except HTTPException (result × Store)`; since every handler performs
all its reads and validation before its single write, an error result
leaves the store unchanged, which the embedding expresses by returning no
store on the error path.  Timestamps (`updated_at`) and the raw JSON layer
are outside every claim and are omitted; update payloads are modelled as
typed partial records plus the list of unknown keys (the handlers drop
unknown keys without ever reading their values).
-/

/-- Hex-digit test used by ObjectId string validation (bson accepts a
24-character hex string, upper or lower case). -/
def isHexChar (c : Char) : Bool :=
  c.isDigit || (decide ('a' ≤ c) && decide (c ≤ 'f')) || (decide ('A' ≤ c) && decide (c ≤ 'F'))

/-- Character-list lowercase (same result as `str.lower` on ASCII hex). -/
def strToLower (s : String) : String :=
  ⟨s.data.map Char.toLower⟩

/-- `ObjectId(str(v))` followed by `str(...)`: accepts a 24-character hex
string and yields the canonical (lowercase) rendering; any other string
raises, which the model renders as `none`. -/
def oidParse (s : String) : Option String :=
  if s.length == 24 && s.data.all isHexChar then some (strToLower s) else none

/-- `schemas.Room` (the stored document; out-of-band or unvalidated updates
can leave any values here, hence the untyped-width `Int`/`String` fields). -/
structure Room where
  name : String
  capacity : Int
  gender : String
  «type» : String
  cooling : String
  amenities : List String
deriving DecidableEq

/-- `schemas.Participant`. -/
structure Participant where
  full_name : String
  email : Option String
  phone : Option String
  gender : Option String
  parish : Option String
  special_needs : Option String
  preference : Option String
deriving DecidableEq

/-- `schemas.Assignment`. -/
structure Assignment where
  participant_id : String
  room_id : String
  stay_days : List Int
deriving DecidableEq

/-- The three collections of the document store. -/
structure Store where
  rooms : List (String × Room)
  participants : List (String × Participant)
  assignments : List (String × Assignment)
deriving DecidableEq

/-- `fastapi.HTTPException` reduced to the data the handlers put in it. -/
structure HTTPException where
  status : Nat
  detail : String
deriving DecidableEq

/-- A `PUT /rooms/{id}` body: the six allow-listed fields, each optionally
present, plus the names of any unknown keys (whose values the handler never
reads). -/
structure RoomPayload where
  name : Option String
  capacity : Option Int
  gender : Option String
  «type» : Option String
  cooling : Option String
  amenities : Option (List String)
  unknownKeys : List String
deriving DecidableEq

/-- A `PUT /participants/{id}` body, same shape. -/
structure ParticipantPayload where
  full_name : Option String
  email : Option String
  phone : Option String
  gender : Option String
  parish : Option String
  special_needs : Option String
  preference : Option String
  unknownKeys : List String
deriving DecidableEq

/-- A `PUT /assignments/{id}` body. -/
structure AssignmentPayload where
  participant_id : Option String
  room_id : Option String
  stay_days : Option (List Int)
  unknownKeys : List String
deriving DecidableEq

/-- `find_one({"_id": k})`: the first document with the given id. -/
def findDoc {α : Type} (l : List (String × α)) (k : String) : Option α :=
  (l.find? (fun kv => kv.1 == k)).map (fun kv => kv.2)

/-- `update_one({"_id": k}, {"$set": ...})`: rewrite the first document
with the given id. -/
def setFirst {α : Type} (l : List (String × α)) (k : String) (f : α → α) :
    List (String × α) :=
  match l with
  | [] => []
  | kv :: t => if kv.1 == k then (kv.1, f kv.2) :: t else kv :: setFirst t k f

/-- `delete_one({"_id": k})`: remove the first document with the given id. -/
def removeFirstKey {α : Type} (l : List (String × α)) (k : String) :
    List (String × α) :=
  match l with
  | [] => []
  | kv :: t => if kv.1 == k then t else kv :: removeFirstKey t k

/-- The day loop `for d in stay_days: if d not in [1,2,3]: raise` succeeds
exactly when every day is in 1..3. -/
def daysOk (days : List Int) : Bool :=
  days.all (fun d => [(1 : Int), 2, 3].contains d)

/-- `db.assignment.count_documents({"room_id": rid, "stay_days": day})`. -/
def countRoomDay (l : List (String × Assignment)) (rid : String) (day : Int) : Nat :=
  (l.filter (fun kv => kv.2.room_id == rid && kv.2.stay_days.contains day)).length

/-- Same count with `"_id": {"$ne": aid}` (the update's self-exclusion). -/
def countRoomDayExcl (l : List (String × Assignment)) (rid : String) (day : Int)
    (aid : String) : Nat :=
  (l.filter (fun kv =>
    kv.2.room_id == rid && kv.2.stay_days.contains day && kv.1 != aid)).length

/-- `db.assignment.count_documents({"room_id": rid})`. -/
def countByRoom (l : List (String × Assignment)) (rid : String) : Nat :=
  (l.filter (fun kv => kv.2.room_id == rid)).length

/-- `db.assignment.count_documents({"participant_id": pid})`. -/
def countByParticipant (l : List (String × Assignment)) (pid : String) : Nat :=
  (l.filter (fun kv => kv.2.participant_id == pid)).length

/-- The pydantic field constraints of `schemas.Room`: capacity 1..100 and
the three `Literal` enumerations. -/
def roomValid (r : Room) : Bool :=
  decide (1 ≤ r.capacity) && decide (r.capacity ≤ 100) &&
  ["male", "female", "mixed"].contains r.gender &&
  ["dorm", "double", "private"].contains r.«type» &&
  ["ventilated", "air_conditioned"].contains r.cooling

/-- A room-update payload whose provided values happen to satisfy the
schema constraints (the handler itself never checks this). -/
def roomPayloadValid (p : RoomPayload) : Bool :=
  (match p.capacity with
   | some c => decide (1 ≤ c) && decide (c ≤ 100)
   | none => true) &&
  (match p.gender with
   | some g => ["male", "female", "mixed"].contains g
   | none => true) &&
  (match p.«type» with
   | some t => ["dorm", "double", "private"].contains t
   | none => true) &&
  (match p.cooling with
   | some c => ["ventilated", "air_conditioned"].contains c
   | none => true)

/-- `not data` after the allow-list filter of `update_room`: no allow-listed
field present (unknown keys were already dropped). -/
def roomPayloadIsEmpty (p : RoomPayload) : Bool :=
  p.name.isNone && p.capacity.isNone && p.gender.isNone &&
  p.«type».isNone && p.cooling.isNone && p.amenities.isNone

/-- `{"$set": data}` applied to a room document. -/
def applyRoomSet (d : Room) (p : RoomPayload) : Room :=
  ⟨p.name.getD d.name, p.capacity.getD d.capacity, p.gender.getD d.gender,
   p.«type».getD d.«type», p.cooling.getD d.cooling, p.amenities.getD d.amenities⟩

/-- `not data` after the allow-list filter of `update_participant`. -/
def participantPayloadIsEmpty (p : ParticipantPayload) : Bool :=
  p.full_name.isNone && p.email.isNone && p.phone.isNone && p.gender.isNone &&
  p.parish.isNone && p.special_needs.isNone && p.preference.isNone

/-- `{"$set": data}` applied to a participant document. -/
def applyParticipantSet (d : Participant) (p : ParticipantPayload) : Participant :=
  ⟨p.full_name.getD d.full_name, Option.or p.email d.email, Option.or p.phone d.phone,
   Option.or p.gender d.gender, Option.or p.parish d.parish,
   Option.or p.special_needs d.special_needs, Option.or p.preference d.preference⟩

/-- `POST /rooms`: pydantic validates the body against `schemas.Room`
(422 on failure) and the handler inserts it; `newId` is the id Mongo
generates. -/
def create_room (s : Store) (room : Room) (newId : String) :
    Except HTTPException (String × Store) :=
  if roomValid room then
    Except.ok (newId, ⟨s.rooms ++ [(newId, room)], s.participants, s.assignments⟩)
  else Except.error ⟨422, "validation error"⟩

/-- `PUT /rooms/{room_id}` (`update_room` in `main.py`). -/
def update_room (s : Store) (room_id : String) (payload : RoomPayload) :
    Except HTTPException (Room × Store) :=
  match oidParse room_id with
  | none => Except.error ⟨400, "Identifiant invalide"⟩
  | some rid =>
    if roomPayloadIsEmpty payload then
      Except.error ⟨400, "Aucun champ a mettre a jour"⟩
    else
      match findDoc s.rooms rid with
      | none => Except.error ⟨404, "Chambre introuvable"⟩
      | some doc =>
        Except.ok (applyRoomSet doc payload,
          ⟨setFirst s.rooms rid (fun d => applyRoomSet d payload),
           s.participants, s.assignments⟩)

/-- `DELETE /rooms/{room_id}` (`delete_room` in `main.py`). -/
def delete_room (s : Store) (room_id : String) :
    Except HTTPException (String × Store) :=
  match oidParse room_id with
  | none => Except.error ⟨400, "Identifiant invalide"⟩
  | some rid =>
    if 0 < countByRoom s.assignments rid then
      Except.error ⟨409, "Impossible de supprimer: des attributions existent"⟩
    else
      match findDoc s.rooms rid with
      | none => Except.error ⟨404, "Chambre introuvable"⟩
      | some _ =>
        Except.ok ("deleted", ⟨removeFirstKey s.rooms rid, s.participants, s.assignments⟩)

/-- `PUT /participants/{participant_id}` (`update_participant`). -/
def update_participant (s : Store) (participant_id : String)
    (payload : ParticipantPayload) : Except HTTPException (Participant × Store) :=
  match oidParse participant_id with
  | none => Except.error ⟨400, "Identifiant invalide"⟩
  | some pid =>
    if participantPayloadIsEmpty payload then
      Except.error ⟨400, "Aucun champ a mettre a jour"⟩
    else
      match findDoc s.participants pid with
      | none => Except.error ⟨404, "Participant introuvable"⟩
      | some doc =>
        Except.ok (applyParticipantSet doc payload,
          ⟨s.rooms, setFirst s.participants pid (fun d => applyParticipantSet d payload),
           s.assignments⟩)

/-- `DELETE /participants/{participant_id}` (`delete_participant`). -/
def delete_participant (s : Store) (participant_id : String) :
    Except HTTPException (String × Store) :=
  match oidParse participant_id with
  | none => Except.error ⟨400, "Identifiant invalide"⟩
  | some pid =>
    if 0 < countByParticipant s.assignments pid then
      Except.error ⟨409, "Impossible de supprimer: des attributions existent"⟩
    else
      match findDoc s.participants pid with
      | none => Except.error ⟨404, "Participant introuvable"⟩
      | some _ =>
        Except.ok ("deleted", ⟨s.rooms, removeFirstKey s.participants pid, s.assignments⟩)

/-- `POST /assignments` (`create_assignment`): day validation, id syntax,
participant existence, room existence, then the per-day capacity loop in
the order the days were given; the record is inserted only if no check
raised.  Note the inserted document keeps the id strings exactly as the
client sent them, while the count query uses the canonical `str(rid)`. -/
def create_assignment (s : Store) (assignment : Assignment) (newId : String) :
    Except HTTPException (String × Store) :=
  if daysOk assignment.stay_days then
    match oidParse assignment.participant_id, oidParse assignment.room_id with
    | some pid, some rid =>
      match findDoc s.participants pid with
      | none => Except.error ⟨404, "Participant introuvable"⟩
      | some _ =>
        match findDoc s.rooms rid with
        | none => Except.error ⟨404, "Chambre introuvable"⟩
        | some room =>
          match assignment.stay_days.find? (fun day =>
              decide (room.capacity ≤ (countRoomDay s.assignments rid day : Int))) with
          | some day =>
            Except.error ⟨409, "Capacite atteinte pour le jour " ++ toString day⟩
          | none =>
            Except.ok (newId,
              ⟨s.rooms, s.participants, s.assignments ++ [(newId, assignment)]⟩)
    | _, _ => Except.error ⟨400, "Identifiants invalides"⟩
  else Except.error ⟨400, "Les jours doivent etre parmi 1,2,3"⟩

/-- `GET /assignments` (`list_assignments`): Python truthiness means an
absent or empty `room_id` and an absent or zero `day` add no condition. -/
def list_assignments (s : Store) (room_id : Option String) (day : Option Int) :
    List (String × Assignment) :=
  let qRoom : Option String :=
    match room_id with
    | some r => if r == "" then none else some r
    | none => none
  let qDay : Option Int :=
    match day with
    | some d => if d == 0 then none else some d
    | none => none
  s.assignments.filter (fun kv =>
    (match qRoom with
     | some r => kv.2.room_id == r
     | none => true) &&
    (match qDay with
     | some d => kv.2.stay_days.contains d
     | none => true))

/-- `PUT /assignments/{assignment_id}` (`update_assignment`): allow-list
merge with the stored record, id syntax on the merged ids, existence of the
merged participant and room, then day validation, then the per-day capacity
loop excluding the record itself. -/
def update_assignment (s : Store) (assignment_id : String)
    (payload : AssignmentPayload) : Except HTTPException (Assignment × Store) :=
  match oidParse assignment_id with
  | none => Except.error ⟨400, "Identifiant invalide"⟩
  | some aid =>
    match findDoc s.assignments aid with
    | none => Except.error ⟨404, "Attribution introuvable"⟩
    | some doc =>
      if payload.participant_id.isNone && payload.room_id.isNone &&
          payload.stay_days.isNone then
        Except.error ⟨400, "Aucun champ a mettre a jour"⟩
      else
        match oidParse (payload.participant_id.getD doc.participant_id),
              oidParse (payload.room_id.getD doc.room_id) with
        | some pid, some rid =>
          match findDoc s.participants pid with
          | none => Except.error ⟨404, "Participant introuvable"⟩
          | some _ =>
            match findDoc s.rooms rid with
            | none => Except.error ⟨404, "Chambre introuvable"⟩
            | some room =>
              if daysOk (payload.stay_days.getD doc.stay_days) then
                match (payload.stay_days.getD doc.stay_days).find? (fun day =>
                    decide (room.capacity ≤
                      (countRoomDayExcl s.assignments rid day aid : Int))) with
                | some day =>
                  Except.error ⟨409, "Capacite atteinte pour le jour " ++ toString day⟩
                | none =>
                  Except.ok
                    (⟨payload.participant_id.getD doc.participant_id,
                      payload.room_id.getD doc.room_id,
                      payload.stay_days.getD doc.stay_days⟩,
                     ⟨s.rooms, s.participants,
                      setFirst s.assignments aid (fun _ =>
                        ⟨payload.participant_id.getD doc.participant_id,
                         payload.room_id.getD doc.room_id,
                         payload.stay_days.getD doc.stay_days⟩)⟩)
              else Except.error ⟨400, "Les jours doivent etre parmi 1,2,3"⟩
        | _, _ => Except.error ⟨400, "Identifiants invalides"⟩

/-- `GET /summary`: the global per-day capacity (each room contributes its
capacity to every day equally). -/
def summaryPerDayCapacity (s : Store) : Int :=
  (s.rooms.map (fun kv => kv.2.capacity)).sum

/-- `GET /summary`: the global `per_day` `assigned` total for day `d` — one
increment per occurrence of `d` in an assignment's `stay_days`, but only
when the assignment's `room_id` is a key of the occupancy map (i.e. an
existing room) and `d` is one of 1,2,3. -/
def summaryAssigned (s : Store) (d : Int) : Nat :=
  (s.assignments.map (fun kv =>
    if s.rooms.any (fun r => r.1 == kv.2.room_id) && [(1 : Int), 2, 3].contains d then
      (kv.2.stay_days.filter (fun x => x == d)).length
    else 0)).sum

/-- `GET /summary`: `per_day_remaining[d] = max(capacity - assigned, 0)`. -/
def summaryRemaining (s : Store) (d : Int) : Int :=
  max (summaryPerDayCapacity s - (summaryAssigned s d : Int)) 0

/-- The capacity invariant of the spec: no room is over-booked on any day
(counting stored assignment records whose `room_id` is the room's id). -/
def CapacityInv (s : Store) : Prop :=
  ∀ kv ∈ s.rooms, ∀ d ∈ ([1, 2, 3] : List Int),
    (countRoomDay s.assignments kv.1 d : Int) ≤ kv.2.capacity

instance (s : Store) : Decidable (CapacityInv s) := by
  unfold CapacityInv
  infer_instance

/-- Follows the words of the claim for the summary total: one increment per
occurrence of `d` across ALL assignments, including those whose `room_id`
matches no existing room.  Written from the claim, to be compared with
`summaryAssigned`. -/
def specAssignedAllAssignments (s : Store) (d : Int) : Nat :=
  (s.assignments.map (fun kv => (kv.2.stay_days.filter (fun x => x == d)).length)).sum

/-- The amended reading: one increment per occurrence of `d` across the
assignments whose `room_id` matches an existing room. -/
def specAssignedExistingRooms (s : Store) (d : Int) : Nat :=
  ((s.assignments.filter (fun kv => s.rooms.any (fun r => r.1 == kv.2.room_id))).map
    (fun kv => (kv.2.stay_days.filter (fun x => x == d)).length)).sum

deriving instance DecidableEq for Except

/-- A valid, in-constraints room document used by concrete instances. -/
def sampleRoom (cap : Int) : Room :=
  ⟨"Salle A", cap, "mixed", "dorm", "ventilated", []⟩

/-- A participant document used by concrete instances. -/
def sampleParticipant : Participant :=
  ⟨"Jean Dupont", none, none, none, none, none, none⟩

/-- Concrete canonical ObjectId strings (24 lowercase hex characters). -/
def oidA : String := "aaaaaaaaaaaaaaaaaaaaaaaa"

def oidB : String := "bbbbbbbbbbbbbbbbbbbbbbbb"

def oidC : String := "cccccccccccccccccccccccc"

def oidD : String := "dddddddddddddddddddddddd"

def oidE : String := "eeeeeeeeeeeeeeeeeeeeeeee"

/-- A store with one room (capacity 2), one participant and one assignment
for day 1, satisfying the capacity invariant. -/
def baseStore : Store :=
  ⟨[(oidA, sampleRoom 2)], [(oidB, sampleParticipant)], [(oidC, ⟨oidB, oidA, [1]⟩)]⟩

/-- The store after creating a second assignment `(oidB, oidA, [2])` with
generated id `oidD` in `baseStore`. -/
def basePostCreate : Store :=
  ⟨[(oidA, sampleRoom 2)], [(oidB, sampleParticipant)],
   [(oidC, ⟨oidB, oidA, [1]⟩), (oidD, ⟨oidB, oidA, [2]⟩)]⟩

/-- The store after updating assignment `oidC` of `baseStore` to days 1,2. -/
def basePostUpdate : Store :=
  ⟨[(oidA, sampleRoom 2)], [(oidB, sampleParticipant)], [(oidC, ⟨oidB, oidA, [1, 2]⟩)]⟩

/-- A store whose single room has capacity 1 and is fully booked on days
1 and 2 by the single assignment `oidC`. -/
def c3Store : Store :=
  ⟨[(oidA, sampleRoom 1)], [(oidB, sampleParticipant)], [(oidC, ⟨oidB, oidA, [1, 2]⟩)]⟩

/-- `c3Store` after extending assignment `oidC` to days 1,2,3. -/
def c3Post : Store :=
  ⟨[(oidA, sampleRoom 1)], [(oidB, sampleParticipant)], [(oidC, ⟨oidB, oidA, [1, 2, 3]⟩)]⟩

/-- A store with a referenced participant `oidB` and an unreferenced
participant `oidE`. -/
def c4Store : Store :=
  ⟨[(oidA, sampleRoom 2)], [(oidB, sampleParticipant), (oidE, sampleParticipant)],
   [(oidC, ⟨oidB, oidA, [1]⟩)]⟩

/-- A store with a single valid room and no assignments. -/
def c5Store : Store := ⟨[(oidA, sampleRoom 2)], [], []⟩

/-- A room-update payload setting capacity to 500 (out of the schema's
1..100 range); the handler applies it without validation. -/
def c5Payload : RoomPayload := ⟨none, some 500, none, none, none, none, []⟩

/-- An in-constraints room-update payload (capacity 50). -/
def c5ValidPayload : RoomPayload := ⟨none, some 50, none, none, none, none, []⟩

/-- A store containing assignment `oidC` whose participant `oidB` does NOT
exist (e.g. removed out of band), used to probe the update validation
order. -/
def c6Store : Store :=
  ⟨[(oidA, sampleRoom 2)], [], [(oidC, ⟨oidB, oidA, [1]⟩)]⟩

/-- An assignment-update payload with an out-of-range day. -/
def c6Payload : AssignmentPayload := ⟨none, none, some [4], []⟩

/-- A room-update payload with no allow-listed field, only an unknown one. -/
def c9EmptyRoomPayload : RoomPayload := ⟨none, none, none, none, none, none, ["foo"]⟩

/-- A participant-update payload with one allowed field and one unknown
field. -/
def c9ParticipantPayload : ParticipantPayload :=
  ⟨some "Marie Curie", none, none, none, none, none, none, ["hack"]⟩

/-- A store with one phantom-room assignment (room `oidA` does not exist),
on which the summary's global per-day total counts nothing. -/
def c8Store : Store := ⟨[], [], [(oidC, ⟨oidB, oidA, [1]⟩)]⟩

/- ----------------------------------------------------------------- -/
/- Helper lemmas                                                     -/
/- ----------------------------------------------------------------- -/

theorem length_filter_mono {α : Type} {p q : α → Bool} (l : List α)
    (h : ∀ a, p a = true → q a = true) :
    (l.filter p).length ≤ (l.filter q).length := by
  induction l with
  | nil => simp
  | cons a t ih =>
    rcases hp : p a with _ | _
    · rcases hq : q a with _ | _ <;> simp [List.filter_cons, hp, hq] <;> omega
    · have hq := h a hp
      simp [List.filter_cons, hp, hq]
      omega

theorem length_filter_lt_of_mem {α : Type} {p q : α → Bool} {l : List α} {x : α}
    (hx : x ∈ l) (h : ∀ a, p a = true → q a = true)
    (hqx : q x = true) (hpx : p x = false) :
    (l.filter p).length < (l.filter q).length := by
  induction l with
  | nil => cases hx
  | cons a t ih =>
    rcases List.mem_cons.mp hx with rfl | hx'
    · have hle := length_filter_mono (p := p) (q := q) t h
      simp [List.filter_cons, hpx, hqx]
      omega
    · have hlt := ih hx'
      rcases hp : p a with _ | _
      · rcases hq : q a with _ | _ <;> simp [List.filter_cons, hp, hq] <;> omega
      · have hq := h a hp
        simp [List.filter_cons, hp, hq]
        omega

theorem findDoc_mem {α : Type} {l : List (String × α)} {k : String} {v : α}
    (h : findDoc l k = some v) : (k, v) ∈ l := by
  unfold findDoc at h
  rcases hf : l.find? (fun kv => kv.1 == k) with _ | kv
  · rw [hf] at h; simp at h
  · rw [hf] at h
    simp only [Option.map_some', Option.some.injEq] at h
    have hmem := List.mem_of_find?_eq_some hf
    have hp := List.find?_some hf
    have hk : kv.1 = k := by simpa using eq_of_beq hp
    have : (k, v) = kv := by
      rw [← hk, ← h, Prod.mk.eta]
    rwa [this]

theorem findDoc_of_nodup {α : Type} {l : List (String × α)}
    (hnd : (l.map Prod.fst).Nodup) {k : String} {v : α} (hm : (k, v) ∈ l) :
    findDoc l k = some v := by
  induction l with
  | nil => cases hm
  | cons a t ih =>
    rcases List.mem_cons.mp hm with heq | hm'
    · subst heq
      simp [findDoc, List.find?]
    · have hk : k ∈ t.map Prod.fst := List.mem_map_of_mem Prod.fst hm'
      have ha : a.1 ≠ k := by
        intro hak
        rw [List.map_cons, List.nodup_cons] at hnd
        exact hnd.1 (hak ▸ hk)
      have hbeq : (a.1 == k) = false := by
        simpa using ha
      have ih' := ih (by rw [List.map_cons, List.nodup_cons] at hnd; exact hnd.2) hm'
      simpa [findDoc, List.find?, hbeq] using ih'

theorem countRoomDay_nil (r : String) (d : Int) : countRoomDay [] r d = 0 := rfl

theorem countRoomDay_cons (a : String × Assignment) (t : List (String × Assignment))
    (r : String) (d : Int) :
    countRoomDay (a :: t) r d
      = countRoomDay t r d
        + (if a.2.room_id == r && a.2.stay_days.contains d then 1 else 0) := by
  simp only [countRoomDay, List.filter_cons]
  by_cases h : (a.2.room_id == r && a.2.stay_days.contains d) = true
  · rw [if_pos h, if_pos h]
    simp [Nat.add_comm]
  · rw [if_neg h, if_neg h]
    simp

theorem countRoomDayExcl_cons (a : String × Assignment) (t : List (String × Assignment))
    (r : String) (d : Int) (aid : String) :
    countRoomDayExcl (a :: t) r d aid
      = countRoomDayExcl t r d aid
        + (if a.2.room_id == r && a.2.stay_days.contains d && a.1 != aid then 1 else 0) := by
  simp only [countRoomDayExcl, List.filter_cons]
  by_cases h : (a.2.room_id == r && a.2.stay_days.contains d && a.1 != aid) = true
  · rw [if_pos h, if_pos h]
    simp [Nat.add_comm]
  · rw [if_neg h, if_neg h]
    simp

theorem countRoomDay_append (l : List (String × Assignment)) (i : String)
    (a : Assignment) (r : String) (d : Int) :
    countRoomDay (l ++ [(i, a)]) r d
      = countRoomDay l r d
        + (if a.room_id == r && a.stay_days.contains d then 1 else 0) := by
  induction l with
  | nil =>
    rw [List.nil_append, countRoomDay_cons, countRoomDay_nil]
  | cons b t ih =>
    rw [List.cons_append, countRoomDay_cons, countRoomDay_cons, ih]
    omega

theorem countRoomDayExcl_le (l : List (String × Assignment)) (r : String)
    (d : Int) (aid : String) :
    countRoomDayExcl l r d aid ≤ countRoomDay l r d := by
  induction l with
  | nil => exact Nat.le_refl _
  | cons a t ih =>
    rw [countRoomDay_cons, countRoomDayExcl_cons]
    by_cases h1 : (a.2.room_id == r && a.2.stay_days.contains d) = true
    · by_cases h2 : (a.1 != aid) = true
      · simp only [h1, h2, Bool.and_self, Bool.true_and, if_true]
        omega
      · have h2' : (a.1 != aid) = false := by simpa using h2
        simp only [h1, h2', Bool.true_and, Bool.and_false, Bool.false_eq_true, if_false, if_true]
        omega
    · have h1' : (a.2.room_id == r && a.2.stay_days.contains d) = false := by simpa using h1
      simp only [h1', Bool.false_and, Bool.false_eq_true, if_false]
      omega

theorem countRoomDayExcl_lt {l : List (String × Assignment)} {r : String}
    {d : Int} {aid : String} {x : Assignment} (hx : (aid, x) ∈ l)
    (hr : (x.room_id == r) = true) (hd : (x.stay_days.contains d) = true) :
    countRoomDayExcl l r d aid < countRoomDay l r d := by
  induction l with
  | nil => cases hx
  | cons a t ih =>
    rw [countRoomDay_cons, countRoomDayExcl_cons]
    rcases List.mem_cons.mp hx with heq | hx'
    · have hle := countRoomDayExcl_le t r d aid
      rw [← heq]
      simp only [hr, hd, Bool.and_self, Bool.true_and, bne_self_eq_false,
        Bool.and_false, Bool.false_eq_true, if_false, if_true]
      omega
    · have hlt := ih hx'
      by_cases h1 : (a.2.room_id == r && a.2.stay_days.contains d) = true
      · by_cases h2 : (a.1 != aid) = true
        · simp only [h1, h2, Bool.true_and, Bool.and_self, if_true]
          omega
        · have h2' : (a.1 != aid) = false := by simpa using h2
          simp only [h1, h2', Bool.true_and, Bool.and_false, Bool.false_eq_true,
            if_false, if_true]
          omega
      · have h1' : (a.2.room_id == r && a.2.stay_days.contains d) = false := by simpa using h1
        simp only [h1', Bool.false_and, Bool.false_eq_true, if_false]
        omega

theorem countRoomDayExcl_of_not_mem {l : List (String × Assignment)} {r : String}
    {d : Int} {aid : String} (h : aid ∉ l.map Prod.fst) :
    countRoomDayExcl l r d aid = countRoomDay l r d := by
  induction l with
  | nil => rfl
  | cons a t ih =>
    have ha : a.1 ≠ aid := by
      intro hak
      exact h (by simp [hak])
    have hbne : (a.1 != aid) = true := by simpa [bne_iff_ne] using ha
    have ih' := ih (by
      intro hm
      exact h (by simp only [List.map_cons, List.mem_cons]; exact Or.inr hm))
    rw [countRoomDay_cons, countRoomDayExcl_cons, ih', hbne]
    simp

theorem countRoomDay_setFirst_le {l : List (String × Assignment)} {aid : String}
    {m : Assignment} {r : String} {d : Int}
    (hnd : (l.map Prod.fst).Nodup) :
    countRoomDay (setFirst l aid (fun _ => m)) r d
      ≤ countRoomDayExcl l r d aid
        + (if m.room_id == r && m.stay_days.contains d then 1 else 0) := by
  induction l with
  | nil => exact Nat.zero_le _
  | cons a t ih =>
    rw [List.map_cons, List.nodup_cons] at hnd
    by_cases hk : (a.1 == aid) = true
    · have haid : a.1 = aid := eq_of_beq hk
      have hnotmem : aid ∉ t.map Prod.fst := haid ▸ hnd.1
      have hexcl := countRoomDayExcl_of_not_mem (l := t) (r := r) (d := d) hnotmem
      have hbne : (a.1 != aid) = false := by simp [bne, hk]
      rw [setFirst, if_pos hk, countRoomDay_cons, countRoomDayExcl_cons, hexcl, hbne]
      simp only [Bool.and_false, Bool.false_eq_true, if_false]
      omega
    · have hbne : (a.1 != aid) = true := by simp [bne]; simpa using hk
      rw [setFirst, if_neg hk, countRoomDay_cons, countRoomDayExcl_cons, hbne]
      have iht := ih hnd.2
      by_cases h1 : (a.2.room_id == r && a.2.stay_days.contains d) = true
      · simp only [h1, Bool.true_and, Bool.and_self, if_true]
        omega
      · have h1' : (a.2.room_id == r && a.2.stay_days.contains d) = false := by simpa using h1
        simp only [h1', Bool.false_and, Bool.false_eq_true, if_false]
        omega

theorem summaryAssigned_eq_filtered (rooms : List (String × Room))
    (l : List (String × Assignment)) (d : Int)
    (hc : (([(1 : Int), 2, 3]).contains d) = true) :
    (l.map (fun kv =>
      if rooms.any (fun r => r.1 == kv.2.room_id) && [(1 : Int), 2, 3].contains d then
        (kv.2.stay_days.filter (fun x => x == d)).length
      else 0)).sum
      = ((l.filter (fun kv => rooms.any (fun r => r.1 == kv.2.room_id))).map
          (fun kv => (kv.2.stay_days.filter (fun x => x == d)).length)).sum := by
  induction l with
  | nil => rfl
  | cons a t ih =>
    rw [List.map_cons, List.sum_cons, List.filter_cons, ih]
    by_cases hA : (rooms.any (fun r => r.1 == a.2.room_id)) = true
    · rw [hA, hc]
      simp
    · have hA' : (rooms.any (fun r => r.1 == a.2.room_id)) = false :=
        Bool.eq_false_iff.mpr hA
      rw [hA']
      simp

/-- C7: for every store state, the summary's per-day remaining value equals
`max(per-day capacity - per-day assigned, 0)` and is therefore never
negative, even when assignments exceed capacity via out-of-band edits. -/
theorem C7_remaining_is_floored_difference (s : Store) (d : Int) :
    summaryRemaining s d
        = max (summaryPerDayCapacity s - (summaryAssigned s d : Int)) 0 ∧
      0 ≤ summaryRemaining s d :=
  ⟨rfl, le_max_right _ _⟩

/-- C8 as stated is false: with one assignment for day 1 whose `room_id`
matches no existing room, the summary's global day-1 assigned total is 0,
while counting occurrences across ALL assignments gives 1. -/
theorem C8_counterexample :
    summaryAssigned c8Store 1 = 0 ∧
    specAssignedAllAssignments c8Store 1 = 1 ∧
    summaryAssigned c8Store 1 ≠ specAssignedAllAssignments c8Store 1 := by
  refine ⟨by decide, by decide, by decide⟩

/-- C8 (amended): for every store state and day d in 1..3, the summary's
global per-day assigned total counts one increment for each occurrence of d
in each Assignment's stay_days, across the assignments whose `room_id`
matches an existing Room (assignments referencing no existing Room are
excluded). -/
theorem C8_assigned_counts_existing_rooms (s : Store) (d : Int)
    (hd : d ∈ ([1, 2, 3] : List Int)) :
    summaryAssigned s d = specAssignedExistingRooms s d := by
  unfold summaryAssigned specAssignedExistingRooms
  exact summaryAssigned_eq_filtered s.rooms s.assignments d
    (List.elem_eq_true_of_mem hd)

/-- Witness for C8's amended theorem at a concrete store and day. -/
theorem C8_witness :
    (1 : Int) ∈ ([1, 2, 3] : List Int) ∧
      summaryAssigned c8Store 1 = specAssignedExistingRooms c8Store 1 :=
  ⟨by decide, C8_assigned_counts_existing_rooms c8Store 1 (by decide)⟩

/-- C10: in the parameterized assignment list, `day = 0` and an
empty-string `room_id` are treated as absent filters, so the listing
returns every Assignment rather than the empty list. -/
theorem C10_falsy_filters_are_absent (s : Store) (room_id : Option String)
    (day : Option Int) :
    list_assignments s room_id (some 0) = list_assignments s room_id none ∧
    list_assignments s (some "") day = list_assignments s none day ∧
    list_assignments s (some "") (some 0) = s.assignments := by
  refine ⟨rfl, rfl, ?_⟩
  simp [list_assignments]

/-- C4: deleting a Room or Participant referenced by at least one
Assignment (matching foreign key) fails with a 409 Conflict and removes
nothing (the handler raises before its delete, so the store is unchanged);
deleting one referenced by zero Assignments succeeds and returns the
`"deleted"` marker. -/
theorem C4_delete_reference_guard (s : Store)
    (room_id participant_id rid pid : String)
    (hrid : oidParse room_id = some rid) (hpid : oidParse participant_id = some pid) :
    (0 < countByRoom s.assignments rid →
        delete_room s room_id
          = Except.error ⟨409, "Impossible de supprimer: des attributions existent"⟩) ∧
    (countByRoom s.assignments rid = 0 →
        ∀ rdoc, findDoc s.rooms rid = some rdoc →
          delete_room s room_id
            = Except.ok ("deleted",
                ⟨removeFirstKey s.rooms rid, s.participants, s.assignments⟩)) ∧
    (0 < countByParticipant s.assignments pid →
        delete_participant s participant_id
          = Except.error ⟨409, "Impossible de supprimer: des attributions existent"⟩) ∧
    (countByParticipant s.assignments pid = 0 →
        ∀ pdoc, findDoc s.participants pid = some pdoc →
          delete_participant s participant_id
            = Except.ok ("deleted",
                ⟨s.rooms, removeFirstKey s.participants pid, s.assignments⟩)) := by
  refine ⟨?_, ?_, ?_, ?_⟩
  · intro h
    simp only [delete_room, hrid]
    rw [if_pos h]
  · intro h rdoc hf
    simp only [delete_room, hrid]
    rw [if_neg (by omega)]
    simp only [hf]
  · intro h
    simp only [delete_participant, hpid]
    rw [if_pos h]
  · intro h pdoc hf
    simp only [delete_participant, hpid]
    rw [if_neg (by omega)]
    simp only [hf]

/-- Witness for C4: in `c4Store`, deleting the referenced room `oidA`
conflicts, and deleting the unreferenced participant `oidE` succeeds. -/
theorem C4_witness :
    delete_room c4Store oidA
        = Except.error ⟨409, "Impossible de supprimer: des attributions existent"⟩ ∧
      delete_participant c4Store oidE
        = Except.ok ("deleted",
            ⟨[(oidA, sampleRoom 2)], [(oidB, sampleParticipant)],
             [(oidC, ⟨oidB, oidA, [1]⟩)]⟩) :=
  ⟨(C4_delete_reference_guard c4Store oidA oidE oidA oidE
      (by decide) (by decide)).1 (by decide),
   (C4_delete_reference_guard c4Store oidA oidE oidA oidE
      (by decide) (by decide)).2.2.2 (by decide) sampleParticipant (by decide)⟩

/-- C9: updating a Room or Participant whose payload holds no allow-listed
field fails with 400 "no field to update" and changes nothing (the handler
raises before its write); with at least one allowed field the update
succeeds on an existing record, the unknown keys are ignored (the result
does not depend on them), and the updated record is returned. -/
theorem C9_update_allow_list (s : Store)
    (room_id participant_id rid pid : String)
    (p : RoomPayload) (q : ParticipantPayload)
    (hrid : oidParse room_id = some rid) (hpid : oidParse participant_id = some pid) :
    (roomPayloadIsEmpty p = true →
        update_room s room_id p = Except.error ⟨400, "Aucun champ a mettre a jour"⟩) ∧
    (update_room s room_id p
      = update_room s room_id
          ⟨p.name, p.capacity, p.gender, p.«type», p.cooling, p.amenities, []⟩) ∧
    (roomPayloadIsEmpty p = false →
        ∀ rdoc, findDoc s.rooms rid = some rdoc →
          update_room s room_id p
            = Except.ok (applyRoomSet rdoc p,
                ⟨setFirst s.rooms rid (fun d => applyRoomSet d p),
                 s.participants, s.assignments⟩)) ∧
    (participantPayloadIsEmpty q = true →
        update_participant s participant_id q
          = Except.error ⟨400, "Aucun champ a mettre a jour"⟩) ∧
    (update_participant s participant_id q
      = update_participant s participant_id
          ⟨q.full_name, q.email, q.phone, q.gender, q.parish,
           q.special_needs, q.preference, []⟩) ∧
    (participantPayloadIsEmpty q = false →
        ∀ pdoc, findDoc s.participants pid = some pdoc →
          update_participant s participant_id q
            = Except.ok (applyParticipantSet pdoc q,
                ⟨s.rooms, setFirst s.participants pid (fun d => applyParticipantSet d q),
                 s.assignments⟩)) := by
  refine ⟨?_, rfl, ?_, ?_, rfl, ?_⟩
  · intro h
    simp only [update_room, hrid]
    rw [if_pos h]
  · intro h rdoc hf
    simp only [update_room, hrid]
    rw [if_neg (by simp [h])]
    simp only [hf]
  · intro h
    simp only [update_participant, hpid]
    rw [if_pos h]
  · intro h pdoc hf
    simp only [update_participant, hpid]
    rw [if_neg (by simp [h])]
    simp only [hf]

/-- Witness for C9: an unknown-keys-only room update fails with 400, and a
participant update carrying one allowed field plus an unknown field
succeeds, drops the unknown field and returns the updated record. -/
theorem C9_witness :
    update_room baseStore oidA c9EmptyRoomPayload
        = Except.error ⟨400, "Aucun champ a mettre a jour"⟩ ∧
      update_participant baseStore oidB c9ParticipantPayload
        = Except.ok (⟨"Marie Curie", none, none, none, none, none, none⟩,
            ⟨[(oidA, sampleRoom 2)],
             [(oidB, ⟨"Marie Curie", none, none, none, none, none, none⟩)],
             [(oidC, ⟨oidB, oidA, [1]⟩)]⟩) :=
  ⟨(C9_update_allow_list baseStore oidA oidB oidA oidB
      c9EmptyRoomPayload c9ParticipantPayload (by decide) (by decide)).1 (by decide),
   (C9_update_allow_list baseStore oidA oidB oidA oidB
      c9EmptyRoomPayload c9ParticipantPayload (by decide) (by decide)).2.2.2.2.2
     (by decide) sampleParticipant (by decide)⟩

/-- C2: assignment create validates in this order, stopping at the first
failure with nothing persisted (every raise precedes the insert, so an
error leaves the store unchanged): day values in {1,2,3} (400), then
syntactic validity of both ids (400), then participant existence before
room existence (404), then each day in the given order and without
deduplication needs its existing-assignment count strictly below the
room's capacity (409 naming the first offending day); when every check
passes, the record is appended.  In particular `stay_days = [1,4]` gives
the 400 day error. -/
theorem C2_create_validation_order (s : Store) (a : Assignment) (newId : String) :
    (daysOk a.stay_days = false →
        create_assignment s a newId
          = Except.error ⟨400, "Les jours doivent etre parmi 1,2,3"⟩) ∧
    (daysOk a.stay_days = true →
      (oidParse a.participant_id = none ∨ oidParse a.room_id = none) →
        create_assignment s a newId = Except.error ⟨400, "Identifiants invalides"⟩) ∧
    (∀ pid rid, daysOk a.stay_days = true →
      oidParse a.participant_id = some pid → oidParse a.room_id = some rid →
      findDoc s.participants pid = none →
        create_assignment s a newId = Except.error ⟨404, "Participant introuvable"⟩) ∧
    (∀ pid rid pdoc, daysOk a.stay_days = true →
      oidParse a.participant_id = some pid → oidParse a.room_id = some rid →
      findDoc s.participants pid = some pdoc → findDoc s.rooms rid = none →
        create_assignment s a newId = Except.error ⟨404, "Chambre introuvable"⟩) ∧
    (∀ pid rid pdoc room day, daysOk a.stay_days = true →
      oidParse a.participant_id = some pid → oidParse a.room_id = some rid →
      findDoc s.participants pid = some pdoc → findDoc s.rooms rid = some room →
      a.stay_days.find? (fun x =>
          decide (room.capacity ≤ (countRoomDay s.assignments rid x : Int))) = some day →
        create_assignment s a newId
          = Except.error ⟨409, "Capacite atteinte pour le jour " ++ toString day⟩) ∧
    (∀ pid rid pdoc room, daysOk a.stay_days = true →
      oidParse a.participant_id = some pid → oidParse a.room_id = some rid →
      findDoc s.participants pid = some pdoc → findDoc s.rooms rid = some room →
      a.stay_days.find? (fun x =>
          decide (room.capacity ≤ (countRoomDay s.assignments rid x : Int))) = none →
        create_assignment s a newId
          = Except.ok (newId, ⟨s.rooms, s.participants, s.assignments ++ [(newId, a)]⟩)) ∧
    (a.stay_days = [1, 4] →
        create_assignment s a newId
          = Except.error ⟨400, "Les jours doivent etre parmi 1,2,3"⟩) := by
  refine ⟨?_, ?_, ?_, ?_, ?_, ?_, ?_⟩
  · intro hd
    simp only [create_assignment, hd, Bool.false_eq_true, if_false]
  · intro hd hor
    rcases hor with hp | hr
    · simp only [create_assignment, hd, if_true, hp]
    · rcases hp2 : oidParse a.participant_id with _ | pid
      · simp only [create_assignment, hd, if_true, hp2]
      · simp only [create_assignment, hd, if_true, hp2, hr]
  · intro pid rid hd hp hr hfp
    simp only [create_assignment, hd, if_true, hp, hr, hfp]
  · intro pid rid pdoc hd hp hr hfp hfr
    simp only [create_assignment, hd, if_true, hp, hr, hfp, hfr]
  · intro pid rid pdoc room day hd hp hr hfp hfr hfind
    simp only [create_assignment, hd, if_true, hp, hr, hfp, hfr, hfind]
  · intro pid rid pdoc room hd hp hr hfp hfr hfind
    simp only [create_assignment, hd, if_true, hp, hr, hfp, hfr, hfind]
  · intro hdays
    have hd : daysOk a.stay_days = false := by rw [hdays]; decide
    simp only [create_assignment, hd, Bool.false_eq_true, if_false]

/-- Witness for C2: the `[1,4]` scenario on a concrete store fails with
the 400 day error. -/
theorem C2_witness :
    create_assignment baseStore ⟨oidB, oidA, [1, 4]⟩ oidD
      = Except.error ⟨400, "Les jours doivent etre parmi 1,2,3"⟩ :=
  (C2_create_validation_order baseStore ⟨oidB, oidA, [1, 4]⟩ oidD).2.2.2.2.2.2 rfl

/-- C6 as stated is false: on `c6Store` (assignment `oidC` whose
participant no longer exists), an update with `stay_days = [4]` fails with
the 404 participant error, not with the 400 day error — the existence of
the merged participant and room is checked BEFORE the day validation. -/
theorem C6_counterexample :
    update_assignment c6Store oidC c6Payload
        = Except.error ⟨404, "Participant introuvable"⟩ ∧
      update_assignment c6Store oidC c6Payload
        ≠ Except.error ⟨400, "Les jours doivent etre parmi 1,2,3"⟩ :=
  ⟨by decide, by decide⟩

/-- C6 (amended): assignment update merges unspecified fields from the
stored record and re-validates existence on the effective ids even when
unchanged, but its validation order differs from create's: after the
empty-payload check it validates the syntax of the merged ids (400), then
the merged participant's existence, then the merged room's existence
(404), and only AFTER that an effective stay_days value outside {1,2,3}
fails with the 400 domain validation error. -/
theorem C6_update_validation_order (s : Store) (assignment_id : String)
    (p : AssignmentPayload) (aid : String) (doc : Assignment)
    (haid : oidParse assignment_id = some aid)
    (hdoc : findDoc s.assignments aid = some doc) :
    ((p.participant_id.isNone && p.room_id.isNone && p.stay_days.isNone) = true →
        update_assignment s assignment_id p
          = Except.error ⟨400, "Aucun champ a mettre a jour"⟩) ∧
    ((p.participant_id.isNone && p.room_id.isNone && p.stay_days.isNone) = false →
      (oidParse (p.participant_id.getD doc.participant_id) = none ∨
        oidParse (p.room_id.getD doc.room_id) = none) →
        update_assignment s assignment_id p
          = Except.error ⟨400, "Identifiants invalides"⟩) ∧
    (∀ pid rid,
      (p.participant_id.isNone && p.room_id.isNone && p.stay_days.isNone) = false →
      oidParse (p.participant_id.getD doc.participant_id) = some pid →
      oidParse (p.room_id.getD doc.room_id) = some rid →
      findDoc s.participants pid = none →
        update_assignment s assignment_id p
          = Except.error ⟨404, "Participant introuvable"⟩) ∧
    (∀ pid rid pdoc,
      (p.participant_id.isNone && p.room_id.isNone && p.stay_days.isNone) = false →
      oidParse (p.participant_id.getD doc.participant_id) = some pid →
      oidParse (p.room_id.getD doc.room_id) = some rid →
      findDoc s.participants pid = some pdoc → findDoc s.rooms rid = none →
        update_assignment s assignment_id p
          = Except.error ⟨404, "Chambre introuvable"⟩) ∧
    (∀ pid rid pdoc room,
      (p.participant_id.isNone && p.room_id.isNone && p.stay_days.isNone) = false →
      oidParse (p.participant_id.getD doc.participant_id) = some pid →
      oidParse (p.room_id.getD doc.room_id) = some rid →
      findDoc s.participants pid = some pdoc → findDoc s.rooms rid = some room →
      daysOk (p.stay_days.getD doc.stay_days) = false →
        update_assignment s assignment_id p
          = Except.error ⟨400, "Les jours doivent etre parmi 1,2,3"⟩) := by
  refine ⟨?_, ?_, ?_, ?_, ?_⟩
  · intro hempty
    simp only [update_assignment, haid, hdoc]
    rw [if_pos hempty]
  · intro hempty hor
    simp only [update_assignment, haid, hdoc]
    rw [if_neg (by simp [hempty])]
    rcases hor with hp | hr
    · simp only [hp]
    · rcases hp2 : oidParse (p.participant_id.getD doc.participant_id) with _ | pid
      · simp only [hp2]
      · simp only [hp2, hr]
  · intro pid rid hempty hp hr hfp
    simp only [update_assignment, haid, hdoc]
    rw [if_neg (by simp [hempty])]
    simp only [hp, hr, hfp]
  · intro pid rid pdoc hempty hp hr hfp hfr
    simp only [update_assignment, haid, hdoc]
    rw [if_neg (by simp [hempty])]
    simp only [hp, hr, hfp, hfr]
  · intro pid rid pdoc room hempty hp hr hfp hfr hdays
    simp only [update_assignment, haid, hdoc]
    rw [if_neg (by simp [hempty])]
    simp only [hp, hr, hfp, hfr, hdays, Bool.false_eq_true, if_false]

/-- Witness for C6's amended theorem: on `baseStore` (participant and room
both exist) an update with `stay_days = [4]` reaches the day validation
and fails with the 400 day error. -/
theorem C6_witness :
    update_assignment baseStore oidC c6Payload
      = Except.error ⟨400, "Les jours doivent etre parmi 1,2,3"⟩ :=
  (C6_update_validation_order baseStore oidC c6Payload oidC ⟨oidB, oidA, [1]⟩
      (by decide) (by decide)).2.2.2.2 oidB oidA sampleParticipant (sampleRoom 2)
    (by decide) (by decide) (by decide) (by decide) (by decide) (by decide)

theorem roomValid_applyRoomSet {d : Room} {p : RoomPayload}
    (hd : roomValid d = true) (hp : roomPayloadValid p = true) :
    roomValid (applyRoomSet d p) = true := by
  rcases p with ⟨pn, pc, pg, pt, pcl, pa, pu⟩
  rcases d with ⟨dn, dc, dg, dt, dcl, da⟩
  rcases pc with _ | c <;> rcases pg with _ | g <;> rcases pt with _ | t <;>
    rcases pcl with _ | cl <;>
      simp_all [roomValid, roomPayloadValid, applyRoomSet]

theorem setFirst_forall {α : Type} {P : String × α → Prop} {l : List (String × α)}
    {k : String} {f : α → α}
    (hl : ∀ kv ∈ l, P kv) (hf : ∀ c x, P (c, x) → P (c, f x)) :
    ∀ kv ∈ setFirst l k f, P kv := by
  induction l with
  | nil => intro kv h; cases h
  | cons a t ih =>
    intro kv hkv
    by_cases hk : (a.1 == k) = true
    · rw [setFirst, if_pos hk] at hkv
      rcases List.mem_cons.mp hkv with rfl | hm
      · have ha := hl a (List.mem_cons_self a t)
        exact hf a.1 a.2 (by rwa [Prod.mk.eta])
      · exact hl kv (List.mem_cons_of_mem a hm)
    · rw [setFirst, if_neg hk] at hkv
      rcases List.mem_cons.mp hkv with rfl | hm
      · exact hl kv (List.mem_cons_self kv t)
      · exact ih (fun x hx => hl x (List.mem_cons_of_mem a hx)) kv hm

/-- C5 as stated is false: `update_room` applies the payload with no
field-level validation, so updating the valid room of `c5Store` with
capacity 500 succeeds and stores a capacity outside 1..100. -/
theorem C5_counterexample :
    update_room c5Store oidA c5Payload
        = Except.ok (⟨"Salle A", 500, "mixed", "dorm", "ventilated", []⟩,
            ⟨[(oidA, ⟨"Salle A", 500, "mixed", "dorm", "ventilated", []⟩)], [], []⟩) ∧
      roomValid ⟨"Salle A", 500, "mixed", "dorm", "ventilated", []⟩ = false :=
  ⟨by decide, by decide⟩

/-- C5 (amended): room creation enforces the field constraints (capacity
1..100 and enum membership), but room updates apply no field-level
validation; the constraints persist across an update only when the
update's provided values themselves satisfy them. -/
theorem C5_constraints_checked_on_create_only (s : Store) (room : Room)
    (newId room_id : String) (p : RoomPayload)
    (hall : ∀ kv ∈ s.rooms, roomValid kv.2 = true)
    (hp : roomPayloadValid p = true) :
    (∀ r s', create_room s room newId = Except.ok (r, s') →
        roomValid room = true ∧ ∀ kv ∈ s'.rooms, roomValid kv.2 = true) ∧
    (∀ r s', update_room s room_id p = Except.ok (r, s') →
        ∀ kv ∈ s'.rooms, roomValid kv.2 = true) := by
  constructor
  · intro r s' h
    rcases hv : roomValid room with _ | _
    · simp only [create_room, hv, Bool.false_eq_true, if_false] at h
      cases h
    · simp only [create_room, hv, if_true, Except.ok.injEq, Prod.mk.injEq] at h
      obtain ⟨-, rfl⟩ := h
      refine ⟨rfl, ?_⟩
      intro kv hkv
      rcases List.mem_append.mp hkv with hm | hm
      · exact hall kv hm
      · rcases List.mem_singleton.mp hm with rfl
        exact hv
  · intro r s' h
    rcases ho : oidParse room_id with _ | rid
    · simp only [update_room, ho] at h
      cases h
    · simp only [update_room, ho] at h
      by_cases hempty : roomPayloadIsEmpty p = true
      · rw [if_pos hempty] at h
        cases h
      · rw [if_neg hempty] at h
        rcases hf : findDoc s.rooms rid with _ | doc
        · rw [hf] at h
          cases h
        · rw [hf] at h
          simp only [Except.ok.injEq, Prod.mk.injEq] at h
          obtain ⟨-, rfl⟩ := h
          show ∀ kv ∈ setFirst s.rooms rid (fun d => applyRoomSet d p),
            roomValid kv.2 = true
          apply setFirst_forall
          · exact hall
          · intro c x hx
            exact roomValid_applyRoomSet hx hp

/-- Witness for C5's amended theorem: creating a valid room and applying
an in-constraints update on `c5Store` both leave every stored room
valid. -/
theorem C5_witness :
    (roomValid (sampleRoom 3) = true ∧
      ∀ kv ∈ (⟨[(oidA, sampleRoom 2), (oidD, sampleRoom 3)], [], []⟩ : Store).rooms,
        roomValid kv.2 = true) ∧
    (∀ kv ∈ (⟨[(oidA, ⟨"Salle A", 50, "mixed", "dorm", "ventilated", []⟩)],
              [], []⟩ : Store).rooms,
        roomValid kv.2 = true) :=
  ⟨(C5_constraints_checked_on_create_only c5Store (sampleRoom 3) oidD oidA
      c5ValidPayload (by decide) (by decide)).1 oidD
      ⟨[(oidA, sampleRoom 2), (oidD, sampleRoom 3)], [], []⟩ (by decide),
   (C5_constraints_checked_on_create_only c5Store (sampleRoom 3) oidD oidA
      c5ValidPayload (by decide) (by decide)).2
      ⟨"Salle A", 50, "mixed", "dorm", "ventilated", []⟩
      ⟨[(oidA, ⟨"Salle A", 50, "mixed", "dorm", "ventilated", []⟩)], [], []⟩ (by decide)⟩

/-- C3: the update capacity count excludes the assignment's own record, so
an update staying in its own room is never blocked by its own occupancy:
for any store satisfying the capacity invariant, if assignment `aid` is
`(p1, roomA, [1,2])`, its participant and room still exist, and roomA has
a free slot on day 3 once `aid` itself is excluded, then updating `aid` to
`stay_days = [1,2,3]` succeeds (its own day-1/day-2 occupancy cannot block
because the self-excluded counts are strictly below capacity). -/
theorem C3_update_self_exclusion (s : Store) (aid : String) (X : Assignment)
    (room : Room) (pid : String) (pdoc : Participant)
    (hinv : CapacityInv s)
    (haid : oidParse aid = some aid)
    (hX : findDoc s.assignments aid = some X)
    (hdays : X.stay_days = [(1 : Int), 2])
    (hpid : oidParse X.participant_id = some pid)
    (hfp : findDoc s.participants pid = some pdoc)
    (hrid : oidParse X.room_id = some X.room_id)
    (hfr : findDoc s.rooms X.room_id = some room)
    (hday3 : ((countRoomDayExcl s.assignments X.room_id 3 aid : Int) < room.capacity)) :
    update_assignment s aid ⟨none, none, some [1, 2, 3], []⟩
      = Except.ok (⟨X.participant_id, X.room_id, [1, 2, 3]⟩,
          ⟨s.rooms, s.participants,
           setFirst s.assignments aid
             (fun _ => ⟨X.participant_id, X.room_id, [1, 2, 3]⟩)⟩) := by
  have hmemR := findDoc_mem hfr
  have hmemX := findDoc_mem hX
  have hrr : (X.room_id == X.room_id) = true := by simp
  have hco1 : (X.stay_days.contains 1) = true := by rw [hdays]; decide
  have hco2 : (X.stay_days.contains 2) = true := by rw [hdays]; decide
  have hc1 : (countRoomDay s.assignments X.room_id 1 : Int) ≤ room.capacity :=
    hinv (X.room_id, room) hmemR 1 (by decide)
  have hc2 : (countRoomDay s.assignments X.room_id 2 : Int) ≤ room.capacity :=
    hinv (X.room_id, room) hmemR 2 (by decide)
  have hx1 := countRoomDayExcl_lt hmemX hrr hco1
  have hx2 := countRoomDayExcl_lt hmemX hrr hco2
  have hb1 : (decide (room.capacity
      ≤ (countRoomDayExcl s.assignments X.room_id 1 aid : Int))) = false := by
    apply decide_eq_false
    simp only [not_le]
    omega
  have hb2 : (decide (room.capacity
      ≤ (countRoomDayExcl s.assignments X.room_id 2 aid : Int))) = false := by
    apply decide_eq_false
    simp only [not_le]
    omega
  have hb3 : (decide (room.capacity
      ≤ (countRoomDayExcl s.assignments X.room_id 3 aid : Int))) = false := by
    apply decide_eq_false
    simp only [not_le]
    omega
  simp only [update_assignment, haid, hX, Option.getD_none, Option.getD_some,
    Option.isNone_none, Option.isNone_some, Bool.and_false, Bool.false_eq_true,
    if_false, hpid, hrid, hfp, hfr]
  rw [if_pos (by decide)]
  simp only [List.find?, hb1, hb2, hb3]

/-- Witness for C3 on `c3Store`: the capacity-1 room is fully booked on
days 1 and 2 by assignment `oidC` itself, yet extending it to day 3
succeeds. -/
theorem C3_witness :
    update_assignment c3Store oidC ⟨none, none, some [1, 2, 3], []⟩
      = Except.ok (⟨oidB, oidA, [1, 2, 3]⟩, c3Post) :=
  C3_update_self_exclusion c3Store oidC ⟨oidB, oidA, [1, 2]⟩ (sampleRoom 1)
    oidB sampleParticipant (by decide) (by decide) (by decide) rfl (by decide)
    (by decide) (by decide) (by decide) (by decide)

/-- C1: starting from a store satisfying the capacity invariant (with the
Mongo-guaranteed facts that room ids are canonical ObjectId strings and
document ids are unique), every successful assignment create and every
successful assignment update yields a store that still satisfies the
invariant: for every room R and every day d in {1,2,3}, the number of
assignment records whose room_id is R's identity and whose stay_days
contains d stays at most R's capacity. -/
theorem C1_capacity_invariant_preserved (s : Store) (a : Assignment)
    (newId assignment_id : String) (p : AssignmentPayload)
    (hkeys : ∀ kv ∈ s.rooms, oidParse kv.1 = some kv.1)
    (hroomsNd : (s.rooms.map Prod.fst).Nodup)
    (hassignNd : (s.assignments.map Prod.fst).Nodup)
    (hinv : CapacityInv s) :
    (∀ r s', create_assignment s a newId = Except.ok (r, s') → CapacityInv s') ∧
    (∀ r s', update_assignment s assignment_id p = Except.ok (r, s') → CapacityInv s') := by
  constructor
  · intro r s' h
    rcases hd : daysOk a.stay_days with _ | _
    · simp only [create_assignment, hd, Bool.false_eq_true, if_false] at h
      cases h
    · simp only [create_assignment, hd, if_true] at h
      rcases hp : oidParse a.participant_id with _ | pid
      · simp only [hp] at h
        cases h
      · rcases hr : oidParse a.room_id with _ | rid
        · simp only [hp, hr] at h
          cases h
        · simp only [hp, hr] at h
          rcases hfp : findDoc s.participants pid with _ | pdoc
          · simp only [hfp] at h
            cases h
          · simp only [hfp] at h
            rcases hfr : findDoc s.rooms rid with _ | room
            · simp only [hfr] at h
              cases h
            · simp only [hfr] at h
              rcases hfind : a.stay_days.find? (fun day =>
                  decide (room.capacity
                    ≤ (countRoomDay s.assignments rid day : Int))) with _ | day
              · simp only [hfind, Except.ok.injEq, Prod.mk.injEq] at h
                obtain ⟨-, rfl⟩ := h
                intro kv hkv d hd3
                show (countRoomDay (s.assignments ++ [(newId, a)]) kv.1 d : Int)
                  ≤ kv.2.capacity
                rw [countRoomDay_append]
                by_cases hm : (a.room_id == kv.1 && a.stay_days.contains d) = true
                · have hrm : a.room_id = kv.1 :=
                    eq_of_beq (Bool.and_eq_true_iff.mp hm).1
                  have hcd : (a.stay_days.contains d) = true :=
                    (Bool.and_eq_true_iff.mp hm).2
                  have hdmem : d ∈ a.stay_days := List.mem_of_elem_eq_true hcd
                  have hkcanon := hkeys kv hkv
                  rw [hrm, hkcanon] at hr
                  have hridkv : rid = kv.1 := (Option.some.inj hr).symm
                  subst hridkv
                  have hfd := findDoc_of_nodup hroomsNd
                    (show (kv.1, kv.2) ∈ s.rooms from Prod.mk.eta ▸ hkv)
                  rw [hfr] at hfd
                  have hroomkv : room = kv.2 := Option.some.inj hfd
                  have hall := List.find?_eq_none.mp hfind d hdmem
                  have hnle : ¬ room.capacity
                      ≤ (countRoomDay s.assignments kv.1 d : Int) := by
                    simpa using hall
                  rw [if_pos hm]
                  rw [hroomkv] at hnle
                  push_cast
                  omega
                · rw [if_neg hm]
                  have hb := hinv kv hkv d hd3
                  push_cast
                  omega
              · simp only [hfind] at h
                cases h
  · intro r s' h
    rcases ha : oidParse assignment_id with _ | aid
    · simp only [update_assignment, ha] at h
      cases h
    · simp only [update_assignment, ha] at h
      rcases hdoc : findDoc s.assignments aid with _ | doc
      · simp only [hdoc] at h
        cases h
      · simp only [hdoc] at h
        by_cases hempty :
            (p.participant_id.isNone && p.room_id.isNone && p.stay_days.isNone) = true
        · rw [if_pos hempty] at h
          cases h
        · rw [if_neg hempty] at h
          rcases hp : oidParse (p.participant_id.getD doc.participant_id) with _ | pid
          · simp only [hp] at h
            cases h
          · rcases hr : oidParse (p.room_id.getD doc.room_id) with _ | rid
            · simp only [hp, hr] at h
              cases h
            · simp only [hp, hr] at h
              rcases hfp : findDoc s.participants pid with _ | pdoc
              · simp only [hfp] at h
                cases h
              · simp only [hfp] at h
                rcases hfr : findDoc s.rooms rid with _ | room
                · simp only [hfr] at h
                  cases h
                · simp only [hfr] at h
                  rcases hdy : daysOk (p.stay_days.getD doc.stay_days) with _ | _
                  · rw [if_neg (by simp [hdy])] at h
                    cases h
                  · rw [if_pos hdy] at h
                    rcases hfind : (p.stay_days.getD doc.stay_days).find? (fun day =>
                        decide (room.capacity
                          ≤ (countRoomDayExcl s.assignments rid day aid : Int)))
                        with _ | day
                    · simp only [hfind, Except.ok.injEq, Prod.mk.injEq] at h
                      obtain ⟨-, rfl⟩ := h
                      intro kv hkv d hd3
                      show (countRoomDay (setFirst s.assignments aid (fun _ =>
                          ⟨p.participant_id.getD doc.participant_id,
                           p.room_id.getD doc.room_id,
                           p.stay_days.getD doc.stay_days⟩)) kv.1 d : Int)
                        ≤ kv.2.capacity
                      have hle : countRoomDay (setFirst s.assignments aid (fun _ =>
                            ⟨p.participant_id.getD doc.participant_id,
                             p.room_id.getD doc.room_id,
                             p.stay_days.getD doc.stay_days⟩)) kv.1 d
                          ≤ countRoomDayExcl s.assignments kv.1 d aid
                            + (if (p.room_id.getD doc.room_id) == kv.1
                                  && (p.stay_days.getD doc.stay_days).contains d
                               then 1 else 0) :=
                        @countRoomDay_setFirst_le s.assignments aid
                          ⟨p.participant_id.getD doc.participant_id,
                           p.room_id.getD doc.room_id,
                           p.stay_days.getD doc.stay_days⟩ kv.1 d hassignNd
                      by_cases hm : ((p.room_id.getD doc.room_id) == kv.1
                          && (p.stay_days.getD doc.stay_days).contains d) = true
                      · have hrm : p.room_id.getD doc.room_id = kv.1 :=
                          eq_of_beq (Bool.and_eq_true_iff.mp hm).1
                        have hcd : ((p.stay_days.getD doc.stay_days).contains d) = true :=
                          (Bool.and_eq_true_iff.mp hm).2
                        have hdmem : d ∈ p.stay_days.getD doc.stay_days :=
                          List.mem_of_elem_eq_true hcd
                        have hkcanon := hkeys kv hkv
                        rw [hrm, hkcanon] at hr
                        have hridkv : rid = kv.1 := (Option.some.inj hr).symm
                        subst hridkv
                        have hfd := findDoc_of_nodup hroomsNd
                          (show (kv.1, kv.2) ∈ s.rooms from Prod.mk.eta ▸ hkv)
                        rw [hfr] at hfd
                        have hroomkv : room = kv.2 := Option.some.inj hfd
                        have hall := List.find?_eq_none.mp hfind d hdmem
                        have hnle : ¬ room.capacity
                            ≤ (countRoomDayExcl s.assignments kv.1 d aid : Int) := by
                          simpa using hall
                        rw [if_pos hm] at hle
                        rw [hroomkv] at hnle
                        omega
                      · rw [if_neg hm] at hle
                        have hexle := countRoomDayExcl_le s.assignments kv.1 d aid
                        have hb := hinv kv hkv d hd3
                        omega
                    · simp only [hfind] at h
                      cases h

/-- Witness for C1: on `baseStore`, a concrete successful create and a
concrete successful update both preserve the capacity invariant. -/
theorem C1_witness : CapacityInv basePostCreate ∧ CapacityInv basePostUpdate :=
  ⟨(C1_capacity_invariant_preserved baseStore ⟨oidB, oidA, [2]⟩ oidD oidC
      ⟨none, none, some [1, 2], []⟩ (by decide) (by decide) (by decide) (by decide)).1
      oidD basePostCreate (by decide),
   (C1_capacity_invariant_preserved baseStore ⟨oidB, oidA, [2]⟩ oidD oidC
      ⟨none, none, some [1, 2], []⟩ (by decide) (by decide) (by decide) (by decide)).2
      ⟨oidB, oidA, [1, 2]⟩ basePostUpdate (by decide)⟩
